import Mathlib

/-!
Verification of the sales-dashboard core pipeline (src/app.py).

The program is a pandas-based filter-and-aggregate pipeline:
`load_data` normalizes column names, checks the six required columns,
parses dates and numerics with coercion to missing on failure, drops
rows with missing parses, derives `sales = quantity * unitprice`, and
keeps only rows with positive sales.  The dashboard then filters by
country set, inclusive year range and month set, and computes KPIs and
grouped aggregates.

Shallow embedding choices:
* A raw cell that pandas `to_datetime`/`to_numeric` with coercion would
  turn into a value or a missing marker is modelled as an `Option`:
  `none` stands for an unparseable (or absent) cell.
* pandas floats are modelled as rationals `ℚ`.
* `df.groupby(k)` (with the default sorting of group keys) is modelled
  as the ascending sort of the finite set of keys, each key paired with
  the fold over the rows carrying it.
* `sort_values(ascending=False)` is modelled as a stable ascending
  insertion sort by value followed by a reversal, matching pandas'
  descending `nargsort` (ascending argsort, then index reversal).
* `Series.nunique` ignores missing values, hence the `filterMap` in
  `total_customers`.
-/

set_option maxRecDepth 16000

namespace SalesDash

/-- A parsed calendar date, as produced by `pd.to_datetime`. -/
structure Date where
  year : Int
  month : Nat
  day : Nat
deriving DecidableEq

/-- One raw CSV row after column-name resolution.  `none` in a field
models a cell that `to_datetime`/`to_numeric` coerces to missing, or a
missing `CustomerID`. -/
structure RawRow where
  country : String
  invoicedate : Option Date
  quantity : Option ℚ
  unitprice : Option ℚ
  customerid : Option Nat
  invoiceno : Nat
deriving DecidableEq

/-- One cleaned transaction line, as retained by `load_data` after
dropping rows with missing parses and non-positive sales
(src/app.py lines 43-49). -/
structure Record where
  country : String
  invoicedate : Date
  quantity : ℚ
  unitprice : ℚ
  customerid : Option Nat
  invoiceno : Nat
  sales : ℚ
deriving DecidableEq

/-- Column-name normalization: `df.columns.str.strip().str.lower()`
(src/app.py line 25).  `strip` removes leading and trailing whitespace
and `lower` lowercases every character; both are written out over the
character list. -/
def normCol (s : String) : String :=
  ⟨(((s.data.dropWhile Char.isWhitespace).reverse.dropWhile
      Char.isWhitespace).reverse).map Char.toLower⟩

/-- The six required (normalized) column names checked by `load_data`
(src/app.py lines 28-35).  They realize the six semantic roles country,
invoice_date, quantity, unit_price, customer_id, invoice_id. -/
def requiredCols : List String :=
  ["country", "invoicedate", "quantity", "unitprice", "customerid", "invoiceno"]

/-- Model of `required_cols - set(df.columns)` (src/app.py line 37): the required
roles that no normalized column name matches. -/
def missingCols (cols : List String) : List String :=
  requiredCols.filter (fun c => decide (c ∉ cols.map normCol))

/-- The fatal error raised by `load_data` via `st.error` + `st.stop`
when required columns are missing (src/app.py lines 38-40). -/
inductive LoadError where
  | missingColumns (roles : List String)
deriving DecidableEq

/-- Column resolution (src/app.py lines 24-40): normalize names, fail
naming the missing required columns, otherwise succeed; after the
renaming each role is carried by the column bearing its own normalized
name, so the resolved role-to-column mapping is the identity on
`requiredCols`. -/
def resolveColumns (cols : List String) :
    Except LoadError (List (String × String)) :=
  if missingCols cols = [] then
    Except.ok (requiredCols.map (fun r => (r, r)))
  else
    Except.error (LoadError.missingColumns (missingCols cols))

/-- Build the retained record from a fully parsed raw row
(src/app.py line 48 derives `sales`). -/
def mkRecord (r : RawRow) (d : Date) (q p : ℚ) : Record :=
  ⟨r.country, d, q, p, r.customerid, r.invoiceno, q * p⟩

/-- Per-row cleaning (src/app.py lines 43-49): a row survives iff its
date, quantity and unit price all parsed and `quantity * unitprice > 0`. -/
def cleanRow (r : RawRow) : Option Record :=
  match r.invoicedate, r.quantity, r.unitprice with
  | some d, some q, some p =>
      if 0 < q * p then some (mkRecord r d q p) else none
  | _, _, _ => none

/-- The cleaning stage of `load_data`: `dropna` on the three parsed
columns, derive `sales`, keep `sales > 0` (src/app.py lines 43-49). -/
def clean (rows : List RawRow) : List Record :=
  rows.filterMap cleanRow

/-- Model of `load_data` (src/app.py lines 17-51), file access aside: resolve
columns, then clean; there is no further check before the cleaned
dataset is returned. -/
def load_data (cols : List String) (rows : List RawRow) :
    Except LoadError (List Record) :=
  match resolveColumns cols with
  | Except.error e => Except.error e
  | Except.ok _ => Except.ok (clean rows)

/-- The sidebar filter state (src/app.py lines 69-89): selected
countries, the year-range slider value `(min, max)`, selected months. -/
structure FilterSpec where
  countries : List String
  yearMin : Int
  yearMax : Int
  months : List Nat
deriving DecidableEq

/-- The row predicate of src/app.py lines 94-98: `country.isin`,
`year.between` (inclusive both ends), `month.isin`. -/
def passesFilter (f : FilterSpec) (r : Record) : Bool :=
  decide (r.country ∈ f.countries) &&
  decide (f.yearMin ≤ r.invoicedate.year) &&
  decide (r.invoicedate.year ≤ f.yearMax) &&
  decide (r.invoicedate.month ∈ f.months)

/-- Model of `filtered_df` (src/app.py lines 94-98). -/
def filtered_df (ds : List Record) (f : FilterSpec) : List Record :=
  ds.filter (passesFilter f)

/-- Model of `total_sales = filtered_df["sales"].sum()` (src/app.py line 103). -/
def total_sales (v : List Record) : ℚ :=
  (v.map Record.sales).sum

/-- Model of `total_customers = filtered_df["customerid"].nunique()`
(src/app.py line 104); `nunique` ignores missing identifiers. -/
def total_customers (v : List Record) : Nat :=
  (v.filterMap Record.customerid).toFinset.card

/-- Model of `total_orders = filtered_df["invoiceno"].nunique()`
(src/app.py line 105). -/
def total_orders (v : List Record) : Nat :=
  (v.map Record.invoiceno).toFinset.card

/-- The key list of a pandas `groupby`: the distinct values of the
grouping column, in ascending order (pandas sorts group keys by
default). -/
def sortedKeys {α : Type} [LinearOrder α] (l : List α) : List α :=
  List.insertionSort (· ≤ ·) l.dedup

/-- The distinct invoice numbers of a view in the ascending key order
pandas `groupby("invoiceno")` produces. -/
def invoiceKeys (v : List Record) : List Nat :=
  sortedKeys (v.map Record.invoiceno)

/-- The per-invoice sales sum: `groupby("invoiceno")["sales"].sum()`
restricted to one invoice number. -/
def invoiceSum (v : List Record) (i : Nat) : ℚ :=
  ((v.filter (fun r => decide (r.invoiceno = i))).map Record.sales).sum

/-- The series `groupby("invoiceno")["sales"].sum()` as a list of
per-invoice sums, in ascending invoice order. -/
def invoiceSums (v : List Record) : List ℚ :=
  (invoiceKeys v).map (invoiceSum v)

/-- Model of `avg_order_value` (src/app.py lines 106-109): the mean of the
per-invoice sales sums when there is at least one order, else 0. -/
def avg_order_value (v : List Record) : ℚ :=
  if 0 < total_orders v then
    (invoiceSums v).sum / ((invoiceSums v).length : ℚ)
  else 0

/-- The distinct invoice years in ascending order, the group keys of
`groupby(invoicedate.dt.year)` (src/app.py line 124). -/
def yearKeys (v : List Record) : List Int :=
  sortedKeys (v.map (fun r => r.invoicedate.year))

/-- Total sales of the rows of one invoice year. -/
def yearSum (v : List Record) (y : Int) : ℚ :=
  ((v.filter (fun r => decide (r.invoicedate.year = y))).map Record.sales).sum

/-- Model of `sales_by_year` (src/app.py lines 122-127): per-year sales totals,
keyed and ordered by ascending year. -/
def sales_by_year (v : List Record) : List (Int × ℚ) :=
  (yearKeys v).map (fun y => (y, yearSum v y))

/-- The distinct invoice months in ascending order, the group keys of
`groupby(invoicedate.dt.month)` (src/app.py line 168). -/
def monthKeys (v : List Record) : List Nat :=
  sortedKeys (v.map (fun r => r.invoicedate.month))

/-- Total sales of the rows of one invoice month. -/
def monthSum (v : List Record) (m : Nat) : ℚ :=
  ((v.filter (fun r => decide (r.invoicedate.month = m))).map Record.sales).sum

/-- Model of `monthly_sales` (src/app.py lines 167-171): per-month sales totals,
keyed and ordered by ascending month. -/
def monthly_sales (v : List Record) : List (Nat × ℚ) :=
  (monthKeys v).map (fun m => (m, monthSum v m))

/-- The distinct countries in the ascending key order pandas
`groupby("country")` produces (src/app.py lines 145 and 188). -/
def countryKeys (v : List Record) : List String :=
  sortedKeys (v.map Record.country)

/-- Total sales of one country's rows:
`groupby("country")["sales"].sum()` restricted to one country. -/
def countrySum (v : List Record) (c : String) : ℚ :=
  ((v.filter (fun r => decide (r.country = c))).map Record.sales).sum

/-- The rows of one country, the group `x` passed to the `apply` lambda
of src/app.py line 189. -/
def countryView (v : List Record) (c : String) : List Record :=
  v.filter (fun r => decide (r.country = c))

/-- Model of `sort_values(value, ascending=False)`: pandas computes the
ascending argsort (stable on groupby-sized inputs) and reverses it, so
the descending order is the reversal of a stable ascending sort by the
value component. -/
def sort_values_desc {α : Type} (l : List (α × ℚ)) : List (α × ℚ) :=
  (List.insertionSort (fun a b => a.2 ≤ b.2) l).reverse

/-- Model of `country_sales` (src/app.py lines 144-150): group by country
(ascending keys), sum sales, sort descending by the sum, keep the
first 10. -/
def country_sales (v : List Record) : List (String × ℚ) :=
  (sort_values_desc ((countryKeys v).map (fun c => (c, countrySum v c)))).take 10

/-- The value the `apply` lambda of src/app.py line 189 computes on one
country's rows: `x.groupby("invoiceno")["sales"].sum().mean()`.  The
group is never empty when the lambda runs, so no emptiness guard
appears in the source; `ℚ` division by zero yields 0 anyway. -/
def countryAOV (v : List Record) (c : String) : ℚ :=
  (invoiceSums (countryView v c)).sum /
    ((invoiceSums (countryView v c)).length : ℚ)

/-- Model of `aov_country` (src/app.py lines 187-193): group by country
(ascending keys), take each country's mean per-invoice sum, sort
descending by that mean, keep the first 10. -/
def aov_country (v : List Record) : List (String × ℚ) :=
  (sort_values_desc ((countryKeys v).map (fun c => (c, countryAOV v c)))).take 10

/-- The number of distinct calendar years among the retained records;
the quantity the spec's data-sufficiency rule speaks about. -/
def distinctYears (v : List Record) : Nat :=
  (v.map (fun r => r.invoicedate.year)).toFinset.card

/-- The distinct invoice numbers of a view in an order chosen without
reference to the code's sorted grouping, for comparison with
`invoiceKeys`. -/
def specInvoiceKeys (v : List Record) : List Nat :=
  (v.map Record.invoiceno).dedup

/-- Modelled from the spec: `avg_order_value` is "the arithmetic mean
of those per-invoice sums" — sum sales per distinct invoice, then
divide the total of those sums by how many distinct invoices there are
(0 when there is none). -/
def specAvgOrderValue (v : List Record) : ℚ :=
  if (specInvoiceKeys v).length = 0 then 0
  else ((specInvoiceKeys v).map (invoiceSum v)).sum /
    (((specInvoiceKeys v).map (invoiceSum v)).length : ℚ)

/-- The mean of per-line sales, the reduction the spec insists
`avg_order_value` is NOT (0 on an empty view). -/
def per_line_mean (v : List Record) : ℚ :=
  if v.length = 0 then 0 else total_sales v / (v.length : ℚ)

/-- Country names in order of first appearance in the view, each
retained once. -/
def firstSeen : List String → List String
  | [] => []
  | c :: l => c :: (firstSeen l).filter (fun x => decide (x ≠ c))

/-- Modelled from the spec: `top_countries_by_sales` as the spec words
it — (country, total_sales) pairs descending by total_sales, "ties
broken by first-seen country order", capped at 10.  The stable
descending insertion sort keeps first-seen order among equal totals. -/
def spec_top_countries (v : List Record) : List (String × ℚ) :=
  (List.insertionSort (fun a b => b.2 ≤ a.2)
    ((firstSeen (v.map Record.country)).map
      (fun c => (c, countrySum v c)))).take 10

/-- The raw rows of the spec's Scenario A: two lines of one UK invoice
100, quantities 2 and 1 at unit price 5. -/
def scenarioARows : List RawRow :=
  [⟨"UK", some ⟨2010, 1, 5⟩, some 2, some 5, some 1, 100⟩,
   ⟨"UK", some ⟨2010, 1, 6⟩, some 1, some 5, some 1, 100⟩]

/-- The cleaned Scenario A dataset. -/
def scenarioA : List Record :=
  clean scenarioARows

/-- A header row whose names need trimming and lowercasing but carries
all six required columns. -/
def goodCols : List String :=
  ["Country", " InvoiceDate ", "Quantity", "UnitPrice", "CustomerID", "InvoiceNo"]

/-- A header row lacking any match for the `customerid` role
(the spec's Scenario E). -/
def scenarioECols : List String :=
  ["Country", "InvoiceDate", "Quantity", "UnitPrice", "InvoiceNo"]

/-- Raw rows that clean to records all lying in the single calendar
year 2010 (the spec's Scenario D shape). -/
def singleYearRows : List RawRow :=
  [⟨"UK", some ⟨2010, 1, 5⟩, some 2, some 5, some 1, 100⟩,
   ⟨"UK", some ⟨2010, 3, 6⟩, some 1, some 5, some 1, 101⟩]

/-- A view with two countries tied on total sales, country "A" seen
first, exposing the tie-break order of `country_sales`. -/
def tieView : List Record :=
  [⟨"A", ⟨2010, 1, 1⟩, 1, 5, some 1, 100, 5⟩,
   ⟨"B", ⟨2010, 1, 2⟩, 1, 5, some 2, 101, 5⟩]

example : scenarioA =
    [⟨"UK", ⟨2010, 1, 5⟩, 2, 5, some 1, 100, 10⟩,
     ⟨"UK", ⟨2010, 1, 6⟩, 1, 5, some 1, 100, 5⟩] := by with_unfolding_all decide

example : total_sales scenarioA = 15 := by with_unfolding_all decide

example : total_orders scenarioA = 1 := by with_unfolding_all decide

example : avg_order_value scenarioA = 15 := by with_unfolding_all decide

example : per_line_mean scenarioA = 15 / 2 := by with_unfolding_all decide

example : missingCols goodCols = [] := by with_unfolding_all decide

example : missingCols scenarioECols = ["customerid"] := by with_unfolding_all decide

example : distinctYears (clean singleYearRows) = 1 := by with_unfolding_all decide

example : country_sales tieView = [("B", 5), ("A", 5)] := by with_unfolding_all decide

example : spec_top_countries tieView = [("A", 5), ("B", 5)] := by with_unfolding_all decide

/-! Generic facts about the sorted group-key lists. -/

theorem sortedKeys_perm {α : Type} [LinearOrder α] (l : List α) :
    (sortedKeys l).Perm l.dedup :=
  List.perm_insertionSort _ _

theorem sortedKeys_nodup {α : Type} [LinearOrder α] (l : List α) :
    (sortedKeys l).Nodup :=
  ((sortedKeys_perm l).nodup_iff).mpr (List.nodup_dedup l)

theorem mem_sortedKeys {α : Type} [LinearOrder α] {a : α} {l : List α} :
    a ∈ sortedKeys l ↔ a ∈ l :=
  (sortedKeys_perm l).mem_iff.trans (List.mem_dedup)

theorem sortedKeys_sorted_le {α : Type} [LinearOrder α] (l : List α) :
    (sortedKeys l).Sorted (· ≤ ·) :=
  List.sorted_insertionSort _ _

theorem sortedKeys_sorted_lt {α : Type} [LinearOrder α] (l : List α) :
    (sortedKeys l).Sorted (· < ·) :=
  (sortedKeys_sorted_le l).lt_of_le (sortedKeys_nodup l)

theorem sortedKeys_eq_of_perm {α : Type} [LinearOrder α] {l r : List α}
    (h : l.Perm r) : sortedKeys l = sortedKeys r :=
  List.eq_of_perm_of_sorted
    ((sortedKeys_perm l).trans (h.dedup.trans (sortedKeys_perm r).symm))
    (sortedKeys_sorted_le l) (sortedKeys_sorted_le r)

theorem sortedKeys_length {α : Type} [LinearOrder α] (l : List α) :
    (sortedKeys l).length = l.toFinset.card := by
  rw [(sortedKeys_perm l).length_eq, List.card_toFinset]

/-! Facts about cleaning. -/

theorem mem_clean {rows : List RawRow} {r : Record} (h : r ∈ clean rows) :
    r.sales = r.quantity * r.unitprice ∧ 0 < r.sales ∧
    ∃ raw ∈ rows, raw.invoicedate = some r.invoicedate ∧
      raw.quantity = some r.quantity ∧ raw.unitprice = some r.unitprice := by
  obtain ⟨raw, hraw, hrow⟩ := List.mem_filterMap.mp h
  cases hd : raw.invoicedate with
  | none => simp [cleanRow, hd] at hrow
  | some d =>
    cases hq : raw.quantity with
    | none => simp [cleanRow, hd, hq] at hrow
    | some q =>
      cases hp : raw.unitprice with
      | none => simp [cleanRow, hd, hq, hp] at hrow
      | some p =>
        by_cases hpos : 0 < q * p
        · simp only [cleanRow, hd, hq, hp, if_pos hpos] at hrow
          obtain rfl := Option.some.inj hrow
          exact ⟨rfl, hpos, raw, hraw, hd, hq, hp⟩
        · simp [cleanRow, hd, hq, hp, if_neg hpos] at hrow

/-- Claim C3: every record surviving normalization has a parseable
date, quantity and unit price (witnessed by a raw row whose three
parses succeeded), satisfies `sales = quantity * unit_price` and
`sales > 0`, and the same invariant holds for every record of every
filtered view of the cleaned dataset; rows violating it are dropped by
`clean`, which is total and never raises. -/
theorem C3_clean_invariant (rows : List RawRow) (f : FilterSpec) (r : Record)
    (h : r ∈ clean rows ∨ r ∈ filtered_df (clean rows) f) :
    r.sales = r.quantity * r.unitprice ∧ 0 < r.sales ∧
    ∃ raw ∈ rows, raw.invoicedate = some r.invoicedate ∧
      raw.quantity = some r.quantity ∧ raw.unitprice = some r.unitprice := by
  rcases h with h | h
  · exact mem_clean h
  · exact mem_clean (List.mem_of_mem_filter h)

/-- Witness for C3 at the Scenario A data. -/
theorem C3_clean_invariant_witness :
    (⟨"UK", ⟨2010, 1, 5⟩, 2, 5, some 1, 100, 10⟩ : Record) ∈ clean scenarioARows ∧
    ((⟨"UK", ⟨2010, 1, 5⟩, 2, 5, some 1, 100, 10⟩ : Record).sales =
        (2 : ℚ) * 5 ∧ (0 : ℚ) < 10 ∧
      ∃ raw ∈ scenarioARows, raw.invoicedate = some ⟨2010, 1, 5⟩ ∧
        raw.quantity = some 2 ∧ raw.unitprice = some 5) := by
  refine ⟨by with_unfolding_all decide, ?_⟩
  have h := C3_clean_invariant scenarioARows ⟨["UK"], 2010, 2010, [1]⟩
    ⟨"UK", ⟨2010, 1, 5⟩, 2, 5, some 1, 100, 10⟩
    (Or.inl (by with_unfolding_all decide))
  exact h

/-- Claim C4: membership in the filtered view is exactly membership in
the dataset together with the country, inclusive-year-range and month
tests of src/app.py lines 94-98; with an empty selected-country list
the view is empty whatever the records are.  `filtered_df` is a total
function, so filtering never raises. -/
theorem C4_filter_semantics :
    (∀ (ds : List Record) (f : FilterSpec) (r : Record),
      r ∈ filtered_df ds f ↔
        r ∈ ds ∧ r.country ∈ f.countries ∧
          f.yearMin ≤ r.invoicedate.year ∧ r.invoicedate.year ≤ f.yearMax ∧
          r.invoicedate.month ∈ f.months) ∧
    (∀ (ds : List Record) (yMin yMax : Int) (ms : List Nat),
      filtered_df ds ⟨[], yMin, yMax, ms⟩ = []) := by
  constructor
  · intro ds f r
    simp [filtered_df, passesFilter, List.mem_filter, and_assoc]
  · intro ds yMin yMax ms
    simp [filtered_df, passesFilter]

/-- Claim C5: column resolution errs exactly when auto-matching by the
normalized names leaves required roles unmatched, the error names
exactly the missing roles, and on success every required role is
covered by a matching column. -/
theorem C5_schema_resolution (cols : List String) :
    (missingCols cols ≠ [] →
      resolveColumns cols =
        Except.error (LoadError.missingColumns (missingCols cols)) ∧
      ∀ role, role ∈ missingCols cols ↔
        role ∈ requiredCols ∧ role ∉ cols.map normCol) ∧
    (missingCols cols = [] →
      resolveColumns cols = Except.ok (requiredCols.map (fun r => (r, r))) ∧
      ∀ role ∈ requiredCols, role ∈ cols.map normCol) := by
  constructor
  · intro hne
    refine ⟨by rw [resolveColumns, if_neg hne], ?_⟩
    intro role
    simp [missingCols, List.mem_filter]
  · intro he
    refine ⟨by rw [resolveColumns, if_pos he], ?_⟩
    intro role hrole
    by_contra hmem
    have : role ∈ missingCols cols :=
      List.mem_filter.mpr ⟨hrole, by simpa using hmem⟩
    rw [he] at this
    exact absurd this (List.not_mem_nil role)

/-- Witness for C5 at the Scenario E header (no `customerid` column):
resolution fails naming exactly the `customerid` role. -/
theorem C5_schema_resolution_witness :
    missingCols scenarioECols ≠ [] ∧
    resolveColumns scenarioECols =
      Except.error (LoadError.missingColumns (missingCols scenarioECols)) ∧
    missingCols scenarioECols = ["customerid"] := by
  refine ⟨by with_unfolding_all decide, ?_, by with_unfolding_all decide⟩
  exact ((C5_schema_resolution scenarioECols).1 (by with_unfolding_all decide)).1

/-! The two-level average-order-value reduction. -/

theorem avg_eq_spec (v : List Record) :
    avg_order_value v = specAvgOrderValue v := by
  have hperm : (invoiceSums v).Perm
      ((specInvoiceKeys v).map (invoiceSum v)) :=
    (sortedKeys_perm (v.map Record.invoiceno)).map _
  have hsum := hperm.sum_eq
  have hlen := hperm.length_eq
  have hcard : total_orders v = (specInvoiceKeys v).length := by
    rw [total_orders, List.card_toFinset]; rfl
  by_cases h0 : 0 < total_orders v
  · have hne : ¬ (specInvoiceKeys v).length = 0 := by omega
    rw [avg_order_value, if_pos h0, specAvgOrderValue, if_neg hne, hsum, hlen]
  · have he : (specInvoiceKeys v).length = 0 := by omega
    rw [avg_order_value, if_neg h0, specAvgOrderValue, if_pos he]

theorem countryAOV_eq_spec (v : List Record) (c : String) :
    countryAOV v c = specAvgOrderValue (countryView v c) := by
  have hperm : (invoiceSums (countryView v c)).Perm
      ((specInvoiceKeys (countryView v c)).map (invoiceSum (countryView v c))) :=
    (sortedKeys_perm ((countryView v c).map Record.invoiceno)).map _
  have hsum := hperm.sum_eq
  have hlen := hperm.length_eq
  by_cases he : (specInvoiceKeys (countryView v c)).length = 0
  · have h2 : (invoiceSums (countryView v c)).length = 0 := by
      rw [hlen]; simpa using he
    have h3 : invoiceSums (countryView v c) = [] :=
      List.length_eq_zero.mp h2
    rw [countryAOV, specAvgOrderValue, if_pos he, h3]
    simp
  · rw [countryAOV, specAvgOrderValue, if_neg he, hsum, hlen]

/-- Claim C1: the `avg_order_value` KPI is the arithmetic mean of the
per-invoice sales sums (sum `sales` by `invoice_id`, then average the
sums), the per-country ranking values are the same two-level reduction
applied to each country's rows, and on the spec's Scenario A this
differs from the mean of per-line sales (15 versus 7.5). -/
theorem C1_avg_order_value_two_level :
    (∀ v : List Record, avg_order_value v = specAvgOrderValue v) ∧
    (∀ (v : List Record) (c : String),
      countryAOV v c = specAvgOrderValue (countryView v c)) ∧
    (∀ (v : List Record) (p : String × ℚ), p ∈ aov_country v →
      p.2 = specAvgOrderValue (countryView v p.1)) ∧
    avg_order_value scenarioA = 15 ∧ per_line_mean scenarioA = 15 / 2 ∧
    avg_order_value scenarioA ≠ per_line_mean scenarioA := by
  refine ⟨avg_eq_spec, countryAOV_eq_spec, ?_, ?_, ?_, ?_⟩
  · intro v p hp
    have h1 : p ∈ sort_values_desc
        ((countryKeys v).map (fun c => (c, countryAOV v c))) :=
      List.mem_of_mem_take hp
    rw [sort_values_desc, List.mem_reverse] at h1
    have h2 := (List.perm_insertionSort _ _).mem_iff.mp h1
    obtain ⟨c, hc, rfl⟩ := List.mem_map.mp h2
    simpa using countryAOV_eq_spec v c
  · with_unfolding_all decide
  · with_unfolding_all decide
  · with_unfolding_all decide

/-- Witness for C1: on Scenario A the per-country ranking holds the
pair ("UK", 15), and 15 is the two-level reduction for the UK rows. -/
theorem C1_avg_order_value_two_level_witness :
    (("UK", (15 : ℚ)) ∈ aov_country scenarioA) ∧
    (("UK", (15 : ℚ)) : String × ℚ).2 =
      specAvgOrderValue (countryView scenarioA "UK") :=
  ⟨by with_unfolding_all decide,
   C1_avg_order_value_two_level.2.2.1 scenarioA ("UK", 15)
     (by with_unfolding_all decide)⟩

/-! The missing data-sufficiency check. -/

/-- Counterexample to claim C2: the cleaned `singleYearRows` span a
single calendar year and are non-empty, yet the load step returns them
as a dataset instead of failing — no `DataSufficiencyError` (nor any
other year-count check) exists in src/app.py. -/
theorem C2_counterexample :
    distinctYears (clean singleYearRows) = 1 ∧
    clean singleYearRows ≠ [] ∧
    load_data goodCols singleYearRows = Except.ok (clean singleYearRows) := by
  refine ⟨by with_unfolding_all decide, by with_unfolding_all decide, ?_⟩
  with_unfolding_all rfl

/-- Claim C2 amended: the load step performs no distinct-year
sufficiency check; whenever the six required columns resolve it returns
the cleaned dataset, whatever the number of calendar years spanned. -/
theorem C2_no_sufficiency_check (cols : List String) (rows : List RawRow)
    (h : missingCols cols = []) :
    load_data cols rows = Except.ok (clean rows) := by
  simp [load_data, resolveColumns, h]

/-- Witness for the amended C2 at the single-year table. -/
theorem C2_no_sufficiency_check_witness :
    missingCols goodCols = [] ∧
    load_data goodCols singleYearRows = Except.ok (clean singleYearRows) :=
  ⟨by with_unfolding_all decide,
   C2_no_sufficiency_check goodCols singleYearRows
     (by with_unfolding_all decide)⟩

/-- Claim C7: a filter selecting no records yields zero for all four
KPIs and empty yearly, top-country, monthly and per-country-AOV
sequences, with no error (all aggregation functions are total). -/
theorem C7_empty_view (ds : List Record) (f : FilterSpec)
    (h : filtered_df ds f = []) :
    total_sales (filtered_df ds f) = 0 ∧
    total_customers (filtered_df ds f) = 0 ∧
    total_orders (filtered_df ds f) = 0 ∧
    avg_order_value (filtered_df ds f) = 0 ∧
    sales_by_year (filtered_df ds f) = [] ∧
    country_sales (filtered_df ds f) = [] ∧
    monthly_sales (filtered_df ds f) = [] ∧
    aov_country (filtered_df ds f) = [] := by
  rw [h]
  with_unfolding_all decide

/-- A filter naming a country absent from Scenario A. -/
def franceOnly : FilterSpec := ⟨["France"], 2010, 2010, [1]⟩

/-- Witness for C7: Scenario A filtered to France only is empty, and
all aggregates of that view are zero or empty. -/
theorem C7_empty_view_witness :
    filtered_df scenarioA franceOnly = [] ∧
    (total_sales (filtered_df scenarioA franceOnly) = 0 ∧
     total_customers (filtered_df scenarioA franceOnly) = 0 ∧
     total_orders (filtered_df scenarioA franceOnly) = 0 ∧
     avg_order_value (filtered_df scenarioA franceOnly) = 0 ∧
     sales_by_year (filtered_df scenarioA franceOnly) = [] ∧
     country_sales (filtered_df scenarioA franceOnly) = [] ∧
     monthly_sales (filtered_df scenarioA franceOnly) = [] ∧
     aov_country (filtered_df scenarioA franceOnly) = []) :=
  ⟨by with_unfolding_all decide,
   C7_empty_view scenarioA franceOnly (by with_unfolding_all decide)⟩

/-! Ordering and arrival-order independence of the trend/seasonality
groupings. -/

theorem sales_by_year_perm {v w : List Record} (hp : v.Perm w) :
    sales_by_year v = sales_by_year w := by
  have hk : yearKeys v = yearKeys w := sortedKeys_eq_of_perm (hp.map _)
  have hs : ∀ y, yearSum v y = yearSum w y := fun y =>
    ((hp.filter _).map _).sum_eq
  rw [sales_by_year, sales_by_year, hk]
  simp [hs]

theorem monthly_sales_perm {v w : List Record} (hp : v.Perm w) :
    monthly_sales v = monthly_sales w := by
  have hk : monthKeys v = monthKeys w := sortedKeys_eq_of_perm (hp.map _)
  have hs : ∀ m, monthSum v m = monthSum w m := fun m =>
    ((hp.filter _).map _).sum_eq
  rw [monthly_sales, monthly_sales, hk]
  simp [hs]

/-- Claim C8: `sales_by_year` is strictly ascending in the year key
with its key list exactly the distinct years present, `monthly_sales`
is strictly ascending in the month key with its key list exactly the
distinct months present, and both are unchanged under any permutation
of the filtered view's rows. -/
theorem C8_group_ordering (v w : List Record) (hp : v.Perm w) :
    (sales_by_year v).Pairwise (fun a b => a.1 < b.1) ∧
    (∀ y : Int, y ∈ (sales_by_year v).map Prod.fst ↔
      y ∈ v.map (fun r => r.invoicedate.year)) ∧
    (monthly_sales v).Pairwise (fun a b => a.1 < b.1) ∧
    (∀ m : Nat, m ∈ (monthly_sales v).map Prod.fst ↔
      m ∈ v.map (fun r => r.invoicedate.month)) ∧
    sales_by_year v = sales_by_year w ∧
    monthly_sales v = monthly_sales w := by
  refine ⟨?_, ?_, ?_, ?_, sales_by_year_perm hp, monthly_sales_perm hp⟩
  · exact List.pairwise_map.mpr (sortedKeys_sorted_lt _)
  · intro y
    rw [sales_by_year, List.map_map]
    have hid : (Prod.fst ∘ fun y => (y, yearSum v y)) = @id Int := rfl
    rw [hid, List.map_id]
    exact mem_sortedKeys
  · exact List.pairwise_map.mpr (sortedKeys_sorted_lt _)
  · intro m
    rw [monthly_sales, List.map_map]
    have hid : (Prod.fst ∘ fun m => (m, monthSum v m)) = @id Nat := rfl
    rw [hid, List.map_id]
    exact mem_sortedKeys

/-- Scenario A's two rows in reversed arrival order. -/
def scenarioARev : List Record := scenarioA.reverse

/-- Witness for C8: the reversed Scenario A view is a permutation of
the original and produces identical, ascending groupings. -/
theorem C8_group_ordering_witness :
    scenarioA.Perm scenarioARev ∧
    sales_by_year scenarioA = sales_by_year scenarioARev ∧
    (sales_by_year scenarioA).Pairwise (fun a b => a.1 < b.1) :=
  ⟨by with_unfolding_all decide,
   (C8_group_ordering scenarioA scenarioARev
     (by with_unfolding_all decide)).2.2.2.2.1,
   (C8_group_ordering scenarioA scenarioARev
     (by with_unfolding_all decide)).1⟩

/-! Monotonicity of total sales under filter widening. -/

theorem total_sales_filter_mono (ds : List Record) (p q : Record → Bool)
    (hpos : ∀ r ∈ ds, 0 < r.sales)
    (himp : ∀ r, p r = true → q r = true) :
    total_sales (ds.filter p) ≤ total_sales (ds.filter q) := by
  induction ds with
  | nil => exact le_refl _
  | cons r t ih =>
    have hpost : ∀ x ∈ t, 0 < x.sales := fun x hx =>
      hpos x (List.mem_cons_of_mem r hx)
    have iht := ih hpost
    have h0 : (0 : ℚ) ≤ r.sales := le_of_lt (hpos r (List.mem_cons_self r t))
    cases hpr : p r with
    | true =>
      have hqr : q r = true := himp r hpr
      simpa [List.filter_cons, hpr, hqr, total_sales] using
        add_le_add_left iht r.sales
    | false =>
      cases hqr : q r with
      | true =>
        simp only [List.filter_cons, hpr, hqr, if_pos, if_neg,
          Bool.false_eq_true, ite_false, ite_true, total_sales,
          List.map_cons, List.sum_cons]
        calc ((t.filter p).map Record.sales).sum
            ≤ ((t.filter q).map Record.sales).sum := iht
          _ ≤ r.sales + ((t.filter q).map Record.sales).sum :=
              le_add_of_nonneg_left h0
      | false =>
        simpa [List.filter_cons, hpr, hqr, total_sales] using iht

/-- Claim C9: with the same countries and months, widening the year
range (smaller or equal minimum, greater or equal maximum) never
decreases `total_sales`; the positivity of every retained record's
sales (guaranteed by cleaning, claim C3) makes the extra rows only
add. -/
theorem C9_year_widening (ds : List Record) (f₁ f₂ : FilterSpec)
    (hpos : ∀ r ∈ ds, 0 < r.sales)
    (hc : f₁.countries = f₂.countries) (hm : f₁.months = f₂.months)
    (h₁ : f₂.yearMin ≤ f₁.yearMin) (h₂ : f₁.yearMax ≤ f₂.yearMax) :
    total_sales (filtered_df ds f₁) ≤ total_sales (filtered_df ds f₂) := by
  apply total_sales_filter_mono ds _ _ hpos
  intro r hr
  simp only [passesFilter, Bool.and_eq_true, decide_eq_true_eq] at hr ⊢
  obtain ⟨⟨⟨hcy, hy1⟩, hy2⟩, hmo⟩ := hr
  exact ⟨⟨⟨hc ▸ hcy, le_trans h₁ hy1⟩, le_trans hy2 h₂⟩, hm ▸ hmo⟩

/-- The Scenario A filter on UK 2010 and a year-widened version. -/
def ukNarrow : FilterSpec := ⟨["UK"], 2010, 2010, [1]⟩

/-- The widened year range around `ukNarrow`. -/
def ukWide : FilterSpec := ⟨["UK"], 2009, 2011, [1]⟩

/-- Witness for C9 on Scenario A. -/
theorem C9_year_widening_witness :
    (∀ r ∈ scenarioA, 0 < r.sales) ∧
    total_sales (filtered_df scenarioA ukNarrow) ≤
      total_sales (filtered_df scenarioA ukWide) :=
  ⟨by with_unfolding_all decide,
   C9_year_widening scenarioA ukNarrow ukWide
     (by with_unfolding_all decide) rfl rfl
     (by with_unfolding_all decide) (by with_unfolding_all decide)⟩

/-- Claim C10: a raw row with a missing customer identifier but
parseable date, quantity and unit price and positive derived sales
survives cleaning; the record it becomes carries no customer id, so it
leaves the distinct-customer count unchanged while adding its sales to
the total and to its year, month and country group sums. -/
theorem C10_missing_customer (raw : RawRow) (d : Date) (q p : ℚ)
    (rows : List RawRow) (V : List Record)
    (hd : raw.invoicedate = some d) (hq : raw.quantity = some q)
    (hp : raw.unitprice = some p) (hc : raw.customerid = none)
    (hpos : 0 < q * p) :
    clean (raw :: rows) = mkRecord raw d q p :: clean rows ∧
    (mkRecord raw d q p).customerid = none ∧
    (mkRecord raw d q p).sales = q * p ∧
    total_customers (mkRecord raw d q p :: V) = total_customers V ∧
    total_sales (mkRecord raw d q p :: V) = q * p + total_sales V ∧
    yearSum (mkRecord raw d q p :: V) d.year = q * p + yearSum V d.year ∧
    monthSum (mkRecord raw d q p :: V) d.month =
      q * p + monthSum V d.month ∧
    countrySum (mkRecord raw d q p :: V) raw.country =
      q * p + countrySum V raw.country := by
  have hrow : cleanRow raw = some (mkRecord raw d q p) := by
    simp [cleanRow, hd, hq, hp, if_pos hpos]
  refine ⟨?_, by simp [mkRecord, hc], by simp [mkRecord], ?_, ?_, ?_, ?_, ?_⟩
  · simp [clean, List.filterMap_cons, hrow]
  · simp [total_customers, List.filterMap_cons, mkRecord, hc]
  · simp [total_sales, mkRecord]
  · simp [yearSum, List.filter_cons, mkRecord]
  · simp [monthSum, List.filter_cons, mkRecord]
  · simp [countrySum, List.filter_cons, mkRecord]

/-- A raw row with a missing customer identifier. -/
def anonRaw : RawRow := ⟨"UK", some ⟨2010, 2, 7⟩, some 3, some 2, none, 102⟩

/-- Witness for C10: the anonymous row survives cleaning in front of
the Scenario A rows, adds its 6 of sales to the total and leaves the
distinct-customer count at 1. -/
theorem C10_missing_customer_witness :
    clean (anonRaw :: scenarioARows) =
      mkRecord anonRaw ⟨2010, 2, 7⟩ 3 2 :: clean scenarioARows ∧
    total_customers (mkRecord anonRaw ⟨2010, 2, 7⟩ 3 2 :: scenarioA) =
      total_customers scenarioA ∧
    total_sales (mkRecord anonRaw ⟨2010, 2, 7⟩ 3 2 :: scenarioA) =
      (3 : ℚ) * 2 + total_sales scenarioA := by
  have h := C10_missing_customer anonRaw ⟨2010, 2, 7⟩ 3 2 scenarioARows
    scenarioA rfl rfl rfl rfl (by with_unfolding_all decide)
  exact ⟨h.1, h.2.2.2.1, h.2.2.2.2.1⟩

/-! The top-countries ranking: cap, order and tie-break. -/

theorem orderedInsert_val_pairwise {α : Type} [LinearOrder α]
    {x : α × ℚ} {l : List (α × ℚ)}
    (hl : l.Pairwise (fun a b => a.2 < b.2 ∨ (a.2 = b.2 ∧ a.1 < b.1)))
    (hx : ∀ y ∈ l, x.1 < y.1) :
    (l.orderedInsert (fun a b => a.2 ≤ b.2) x).Pairwise
      (fun a b => a.2 < b.2 ∨ (a.2 = b.2 ∧ a.1 < b.1)) := by
  induction l with
  | nil => simp
  | cons y t ih =>
    obtain ⟨hyt, ht⟩ := List.pairwise_cons.mp hl
    rw [List.orderedInsert]
    by_cases hxy : x.2 ≤ y.2
    · rw [if_pos hxy]
      refine List.pairwise_cons.mpr ⟨?_, hl⟩
      intro z hz
      rcases List.mem_cons.mp hz with rfl | hz
      · rcases lt_or_eq_of_le hxy with hlt | heq
        · exact Or.inl hlt
        · exact Or.inr ⟨heq, hx z (List.mem_cons_self z t)⟩
      · rcases hyt z hz with hlt | ⟨heq, -⟩
        · exact Or.inl (lt_of_le_of_lt hxy hlt)
        · rcases lt_or_eq_of_le (le_of_le_of_eq hxy heq) with hlt | heq2
          · exact Or.inl hlt
          · exact Or.inr ⟨heq2, hx z (List.mem_cons_of_mem y hz)⟩
    · rw [if_neg hxy]
      refine List.pairwise_cons.mpr ⟨?_, ?_⟩
      · intro z hz
        rcases (List.mem_orderedInsert _).mp hz with rfl | hz
        · exact Or.inl (lt_of_not_le hxy)
        · exact hyt z hz
      · exact ih ht (fun z hz => hx z (List.mem_cons_of_mem y hz))

theorem insertionSort_val_pairwise {α : Type} [LinearOrder α]
    {l : List (α × ℚ)} (hl : l.Pairwise (fun a b => a.1 < b.1)) :
    (List.insertionSort (fun a b => a.2 ≤ b.2) l).Pairwise
      (fun a b => a.2 < b.2 ∨ (a.2 = b.2 ∧ a.1 < b.1)) := by
  induction l with
  | nil => simp
  | cons x t ih =>
    obtain ⟨hx, ht⟩ := List.pairwise_cons.mp hl
    rw [List.insertionSort]
    exact orderedInsert_val_pairwise (ih ht)
      (fun y hy => hx y ((List.perm_insertionSort _ t).mem_iff.mp hy))

/-- Counterexample to claim C6: in `tieView` the countries "A" and "B"
tie at 5 of sales with "A" seen first, yet `country_sales` ranks "B"
first — `groupby("country")` reorders the groups alphabetically before
the descending value sort, so first-seen order cannot influence the
result. -/
theorem C6_counterexample :
    firstSeen (tieView.map Record.country) = ["A", "B"] ∧
    country_sales tieView = [("B", 5), ("A", 5)] ∧
    spec_top_countries tieView = [("A", 5), ("B", 5)] ∧
    country_sales tieView ≠ spec_top_countries tieView := by
  with_unfolding_all decide

/-- Claim C6 amended: `country_sales` holds `min (#countries) 10`
pairs, contains every distinct country's (country, total) pair when at
most 10 countries are present, and is ordered descending by total
sales with ties broken by descending country name (the reversal of the
alphabetical groupby key order), not by first-seen order. -/
theorem C6_top_countries (v : List Record) :
    (country_sales v).length = min (countryKeys v).length 10 ∧
    ((countryKeys v).length ≤ 10 →
      ∀ c ∈ countryKeys v, (c, countrySum v c) ∈ country_sales v) ∧
    (country_sales v).Pairwise
      (fun a b => b.2 < a.2 ∨ (b.2 = a.2 ∧ b.1 < a.1)) := by
  have hlen : (sort_values_desc
      ((countryKeys v).map (fun c => (c, countrySum v c)))).length =
      (countryKeys v).length := by
    rw [sort_values_desc, List.length_reverse,
      (List.perm_insertionSort _ _).length_eq, List.length_map]
  refine ⟨?_, ?_, ?_⟩
  · rw [country_sales, List.length_take, hlen, Nat.min_comm]
  · intro hle c hc
    have hmem : (c, countrySum v c) ∈
        sort_values_desc ((countryKeys v).map (fun c => (c, countrySum v c))) := by
      rw [sort_values_desc, List.mem_reverse,
        (List.perm_insertionSort _ _).mem_iff]
      exact List.mem_map.mpr ⟨c, hc, rfl⟩
    rw [country_sales, List.take_of_length_le (by rw [hlen]; exact hle)]
    exact hmem
  · have hkeys : ((countryKeys v).map
        (fun c => (c, countrySum v c))).Pairwise (fun a b => a.1 < b.1) :=
      List.pairwise_map.mpr (sortedKeys_sorted_lt _)
    have hsorted := insertionSort_val_pairwise hkeys
    have hrev : (sort_values_desc
        ((countryKeys v).map (fun c => (c, countrySum v c)))).Pairwise
        (fun a b => b.2 < a.2 ∨ (b.2 = a.2 ∧ b.1 < a.1)) := by
      rw [sort_values_desc]
      exact List.pairwise_reverse.mpr hsorted
    exact List.Pairwise.sublist (List.take_sublist _ _) hrev

/-- Witness for the amended C6 on the tied two-country view. -/
theorem C6_top_countries_witness :
    (countryKeys tieView).length ≤ 10 ∧
    ("A", countrySum tieView "A") ∈ country_sales tieView ∧
    (country_sales tieView).Pairwise
      (fun a b => b.2 < a.2 ∨ (b.2 = a.2 ∧ b.1 < a.1)) :=
  ⟨by with_unfolding_all decide,
   (C6_top_countries tieView).2.1 (by with_unfolding_all decide) "A"
     (by with_unfolding_all decide),
   (C6_top_countries tieView).2.2⟩

end SalesDash
